import Mathlib

/-! # Block and transaction-body validation (GrinPlusPlus)

A shallow embedding of `BlockChain/Validators/TransactionBodyValidator.cpp` and
`BlockChain/Validators/BlockValidator.cpp`.

* C++ vectors are lists; `size()` is `List.length`.
* `uint32_t` / `uint64_t` arithmetic is arithmetic on `Nat` reduced modulo `2^32` / `2^64`.
* Fixed-width big integers (`Commitment`, `BlindingFactor`, `Hash`, signatures) are natural
  numbers; their `==`, `<`, `>` are the numeric ones.
* A function that may dereference an iterator outside its vector returns `Option Bool`:
  `none` records the out-of-bounds read, `some b` the boolean the C++ function returns.
* Everything the two files call but do not define (consensus constants, item hashes, the
  `Crypto` provider and `CommitmentUtil`) is collected in the structure `Env` and is a
  parameter of every function that uses it.
-/

namespace GrinPP

/-! ## Data model -/

/-- A 33-byte Pedersen commitment, as a big integer. -/
abbrev Commitment := Nat

/-- A 32-byte scalar. -/
abbrev BlindingFactor := Nat

/-- A 32-byte hash value, compared numerically. -/
abbrev Hash := Nat

/-- A serialized range proof. -/
abbrev RangeProof := List Nat

/-- A 64-byte signature. -/
abbrev Signature := Nat

structure TransactionInput where
  features : Nat
  commitment : Commitment
deriving DecidableEq

structure TransactionOutput where
  features : Nat
  commitment : Commitment
  rangeProof : RangeProof
deriving DecidableEq

structure TransactionKernel where
  features : Nat
  fee : Nat
  lockHeight : Nat
  excessCommitment : Commitment
  excessSignature : Signature
deriving DecidableEq

structure TransactionBody where
  inputs : List TransactionInput
  outputs : List TransactionOutput
  kernels : List TransactionKernel
deriving DecidableEq

structure BlockHeader where
  height : Nat
  totalKernelOffset : BlindingFactor
deriving DecidableEq

structure FullBlock where
  header : BlockHeader
  body : TransactionBody
deriving DecidableEq

/-- The block validator object: its only member is the injected `ITxHashSet*` handle. -/
structure BlockValidator where
  m_pTxHashSet : Nat
deriving DecidableEq

/-- Everything the two validators use without defining it: the constants of
`Consensus/BlockWeight.h` and `Consensus/Common.h`, the feature flags, the `Hash()` members of
the three item classes, the static functions of `Crypto` (a null `unique_ptr` is `none`) and
the static functions of `CommitmentUtil`. -/
structure Env where
  BLOCK_INPUT_WEIGHT : Nat
  BLOCK_OUTPUT_WEIGHT : Nat
  BLOCK_KERNEL_WEIGHT : Nat
  MAX_BLOCK_WEIGHT : Nat
  REWARD : Nat
  COINBASE_OUTPUT : Nat
  COINBASE_KERNEL : Nat
  hashInput : TransactionInput → Hash
  hashOutput : TransactionOutput → Hash
  hashKernel : TransactionKernel → Hash
  CommitTransparent : Nat → Option Commitment
  AddCommitments : List Commitment → List Commitment → Option Commitment
  VerifyRangeProofs : List Commitment → List RangeProof → Bool
  AddKernelOffsets : List BlindingFactor → List BlindingFactor → BlindingFactor
  VerifyKernelSums : FullBlock → Int → BlindingFactor → Bool

/-! ## Machine integers -/

/-- Reduction to `uint32_t`. -/
def u32 (n : Nat) : Nat := n % 4294967296

/-- Reduction to `uint64_t`. -/
def u64 (n : Nat) : Nat := n % 18446744073709551616

/-- The value of a `uint64_t` bit pattern read as `int64_t`. -/
def toInt64 (n : Nat) : Int :=
  if u64 n < 9223372036854775808 then (u64 n : Int) else (u64 n : Int) - 18446744073709551616

/-! ## TransactionBodyValidator -/

/-- The weight sum of `ValidateWeight`, computed as the code does in `uint32_t`. -/
def blockWeight32 (env : Env) (transactionBody : TransactionBody) (withReward : Bool) : Nat :=
  let reserve : Nat := if withReward then 1 else 0
  let blockInputWeight := u32 (u32 transactionBody.inputs.length * env.BLOCK_INPUT_WEIGHT)
  let blockOutputWeight :=
    u32 (u32 (u32 transactionBody.outputs.length + reserve) * env.BLOCK_OUTPUT_WEIGHT)
  let blockKernelWeight :=
    u32 (u32 (u32 transactionBody.kernels.length + reserve) * env.BLOCK_KERNEL_WEIGHT)
  u32 (blockInputWeight + blockOutputWeight + blockKernelWeight)

/-- `TransactionBodyValidator::ValidateWeight`. -/
def ValidateWeight (env : Env) (transactionBody : TransactionBody) (withReward : Bool) : Bool :=
  if blockWeight32 env transactionBody withReward > env.MAX_BLOCK_WEIGHT then false else true

/-- One loop of `VerifySorted` over the hashes of a collection. The argument is the part of
the vector from the iterator `iter` to `cend()`.

* one element left: `iter == cend() - 1`, the loop ends;
* two or more left: `iter->Hash()` and `(iter + 1)->Hash()` are compared, a `>` returns
  false, otherwise `iter++`;
* nothing left: `iter == cend()`, which happens only for an empty vector; then
  `iter != cend() - 1`, the body runs and dereferences `iter` outside the vector. -/
def sortedLoop : List Hash → Option Bool
  | [] => none
  | [_] => some true
  | a :: b :: rest => if a > b then some false else sortedLoop (b :: rest)

/-- `TransactionBodyValidator::VerifySorted`: the three loops in sequence. -/
def VerifySorted (env : Env) (transactionBody : TransactionBody) : Option Bool :=
  match sortedLoop (transactionBody.inputs.map env.hashInput) with
  | none => none
  | some false => some false
  | some true =>
    match sortedLoop (transactionBody.outputs.map env.hashOutput) with
    | none => none
    | some false => some false
    | some true =>
      match sortedLoop (transactionBody.kernels.map env.hashKernel) with
      | none => none
      | some false => some false
      | some true => some true

/-- The first loop of `VerifyCutThrough`: the `std::set` of output commitments, kept as a
duplicate-free list. -/
def outputCommitmentSet (outputs : List TransactionOutput) : List Commitment :=
  outputs.foldl (fun commitments output => List.insert output.commitment commitments) []

/-- The second loop of `VerifyCutThrough`, with its early return. -/
def cutThroughLoop (commitments : List Commitment) : List TransactionInput → Bool
  | [] => true
  | input :: rest =>
    if commitments.count input.commitment > 0 then false else cutThroughLoop commitments rest

/-- `TransactionBodyValidator::VerifyCutThrough`. -/
def VerifyCutThrough (transactionBody : TransactionBody) : Bool :=
  cutThroughLoop (outputCommitmentSet transactionBody.outputs) transactionBody.inputs

/-- `TransactionBodyValidator::VerifyOutputs`. -/
def VerifyOutputs (env : Env) (outputs : List TransactionOutput) : Bool :=
  let commitments := outputs.map (fun output => output.commitment)
  let proofs := outputs.map (fun output => output.rangeProof)
  env.VerifyRangeProofs commitments proofs

/-- `TransactionBodyValidator::VerifyKernels`: the loop body holds only comments. -/
def VerifyKernels : List TransactionKernel → Bool
  | [] => true
  | _ :: rest => VerifyKernels rest

/-- `TransactionBodyValidator::ValidateTransactionBody`. -/
def ValidateTransactionBody (env : Env) (transactionBody : TransactionBody)
    (withReward : Bool) : Option Bool :=
  if !ValidateWeight env transactionBody withReward then some false
  else
    match VerifySorted env transactionBody with
    | none => none
    | some false => some false
    | some true =>
      if !VerifyCutThrough transactionBody then some false
      else if !VerifyOutputs env transactionBody.outputs then some false
      else if !VerifyKernels transactionBody.kernels then some false
      else some true

/-! ## BlockValidator -/

/-- The loop of `VerifyKernelLockHeights`. -/
def lockHeightLoop (height : Nat) : List TransactionKernel → Bool
  | [] => true
  | kernel :: rest => if kernel.lockHeight > height then false else lockHeightLoop height rest

/-- `BlockValidator::VerifyKernelLockHeights`. -/
def VerifyKernelLockHeights (_self : BlockValidator) (block : FullBlock) : Bool :=
  lockHeightLoop block.header.height block.body.kernels

/-- The vector `coinbaseCommitments` of `VerifyCoinbase`. -/
def coinbaseCommitments (env : Env) (block : FullBlock) : List Commitment :=
  (block.body.outputs.filter
    (fun output => output.features &&& env.COINBASE_OUTPUT == env.COINBASE_OUTPUT)).map
    (fun output => output.commitment)

/-- The vector `coinbaseKernelExcesses` of `VerifyCoinbase`. -/
def coinbaseKernelExcesses (env : Env) (block : FullBlock) : List Commitment :=
  (block.body.kernels.filter
    (fun kernel => kernel.features &&& env.COINBASE_KERNEL == env.COINBASE_KERNEL)).map
    (fun kernel => kernel.excessCommitment)

/-- The `uint64_t reward` of `VerifyCoinbase` after its loop `reward += kernel.GetFee()`. -/
def coinbaseReward (env : Env) (block : FullBlock) : Nat :=
  block.body.kernels.foldl (fun reward kernel => u64 (reward + kernel.fee)) (u64 env.REWARD)

/-- `BlockValidator::VerifyCoinbase`. -/
def VerifyCoinbase (_self : BlockValidator) (env : Env) (block : FullBlock) : Bool :=
  match env.CommitTransparent (coinbaseReward env block) with
  | none => false
  | some rewardCommitment =>
    let pOutputAdjustedSum :=
      env.AddCommitments (coinbaseCommitments env block) [rewardCommitment]
    let pKernelSum := env.AddCommitments (coinbaseKernelExcesses env block) []
    match pOutputAdjustedSum, pKernelSum with
    | some outputAdjustedSum, some kernelSum => kernelSum == outputAdjustedSum
    | _, _ => false

/-- The local `blockKernelOffset` of `IsBlockValid` at the call of `VerifyKernelSums`. -/
def blockKernelOffset (env : Env) (block : FullBlock) (previousKernelOffset : BlindingFactor) :
    BlindingFactor :=
  if block.header.totalKernelOffset == previousKernelOffset then
    env.AddKernelOffsets [block.header.totalKernelOffset] [previousKernelOffset]
  else 0

/-- The argument `0 - Consensus::REWARD` of `VerifyKernelSums`: a `uint64_t` difference
received as a signed 64-bit overage. -/
def rewardOverage (env : Env) : Int :=
  toInt64 (u64 (18446744073709551616 - u64 env.REWARD))

/-- `BlockValidator::IsBlockValid`. -/
def IsBlockValid (self : BlockValidator) (env : Env) (block : FullBlock)
    (previousKernelOffset : BlindingFactor) : Option Bool :=
  match ValidateTransactionBody env block.body true with
  | none => none
  | some false => some false
  | some true =>
    if !VerifyKernelLockHeights self block then some false
    else if !VerifyCoinbase self env block then some false
    else if !env.VerifyKernelSums block (rewardOverage env)
        (blockKernelOffset env block previousKernelOffset) then some false
    else some true

/-! ## Reference quantities named by the specification -/

/-- The weight of a body as an exact integer:
`inputs.len * W_in + (outputs.len + r) * W_out + (kernels.len + r) * W_kern`. -/
def exactWeight (env : Env) (transactionBody : TransactionBody) (withReward : Bool) : Nat :=
  let r : Nat := if withReward then 1 else 0
  transactionBody.inputs.length * env.BLOCK_INPUT_WEIGHT
    + (transactionBody.outputs.length + r) * env.BLOCK_OUTPUT_WEIGHT
    + (transactionBody.kernels.length + r) * env.BLOCK_KERNEL_WEIGHT

/-- The order of the secp256k1 group, modulo which blinding factors are added. -/
def curveOrder : Nat :=
  115792089237316195423570985008687907852837564279074904382605163141518161494337

/-- The offset delta of a block in the specification's words: the header's total kernel
offset minus the previous block's total kernel offset, as a scalar. -/
def specKernelOffsetDelta (total previous : BlindingFactor) : BlindingFactor :=
  (total % curveOrder + (curveOrder - previous % curveOrder)) % curveOrder

/-- Every adjacent pair of the list satisfies `hash(i) < hash(i+1)`. -/
def AdjacentLt (hs : List Hash) : Prop :=
  ∀ i a b, hs[i]? = some a → hs[i + 1]? = some b → a < b

/-- Every adjacent pair of the list satisfies `hash(i) ≤ hash(i+1)`. -/
def AdjacentLe (hs : List Hash) : Prop :=
  ∀ i a b, hs[i]? = some a → hs[i + 1]? = some b → a ≤ b

/-- The exact sum of the fees of a list of kernels. -/
def totalFees (kernels : List TransactionKernel) : Nat :=
  (kernels.map (fun kernel => kernel.fee)).sum

/-! ## A sample environment and sample data for concrete evaluations

The constants are sample protocol values (weights 1, 10 and 2, a maximum block weight of
80000, a reward of 60 units of 10^9, coinbase flag bit 1); the provider is a transparent
stand-in in which a commitment is the number it commits to. -/

def sampleEnv : Env where
  BLOCK_INPUT_WEIGHT := 1
  BLOCK_OUTPUT_WEIGHT := 10
  BLOCK_KERNEL_WEIGHT := 2
  MAX_BLOCK_WEIGHT := 80000
  REWARD := 60000000000
  COINBASE_OUTPUT := 1
  COINBASE_KERNEL := 1
  hashInput := fun input => input.commitment
  hashOutput := fun output => output.commitment
  hashKernel := fun kernel => kernel.excessCommitment
  CommitTransparent := fun value => some value
  AddCommitments := fun positive negative =>
    if negative.sum ≤ positive.sum then some (positive.sum - negative.sum) else none
  VerifyRangeProofs := fun commitments proofs => commitments.length == proofs.length
  AddKernelOffsets := fun a b => (a.sum + b.sum) % curveOrder
  VerifyKernelSums := fun _ _ _ => true

def sampleValidator : BlockValidator := ⟨0⟩

/-- Two inputs, two outputs and one kernel, each collection in ascending hash order, no
commitment shared between inputs and outputs. -/
def sampleBody : TransactionBody where
  inputs := [⟨0, 11⟩, ⟨0, 12⟩]
  outputs := [⟨0, 21, []⟩, ⟨0, 22, []⟩]
  kernels := [⟨0, 7, 0, 31, 0⟩]

/-- A block holding only its coinbase output and coinbase kernel: no inputs. -/
def coinbaseOnlyBody : TransactionBody where
  inputs := []
  outputs := [⟨1, 60000000040, []⟩]
  kernels := [⟨1, 0, 0, 40, 0⟩]

/-- A block on `sampleBody` plus a coinbase output and kernel, at height 100, whose header
carries total kernel offset 5. -/
def sampleBlock : FullBlock where
  header := ⟨100, 5⟩
  body :=
    { inputs := [⟨0, 11⟩, ⟨0, 12⟩]
      outputs := [⟨0, 21, []⟩, ⟨0, 22, []⟩, ⟨1, 60000000047, []⟩]
      kernels := [⟨0, 7, 0, 31, 0⟩, ⟨1, 0, 0, 40, 0⟩] }

/-- A body of 2^32 inputs and nothing else. -/
def hugeInputsBody : TransactionBody where
  inputs := List.replicate 4294967296 ⟨0, 11⟩
  outputs := []
  kernels := []

/-- A body whose two inputs are the same entry twice; outputs and kernels as in
`sampleBody`. -/
def duplicateInputBody : TransactionBody where
  inputs := [⟨0, 11⟩, ⟨0, 11⟩]
  outputs := [⟨0, 21, []⟩, ⟨0, 22, []⟩]
  kernels := [⟨0, 7, 0, 31, 0⟩]

/-- The sample body with its second input spending the first output (commitment 21). -/
def cutThroughBody : TransactionBody where
  inputs := [⟨0, 11⟩, ⟨0, 21⟩]
  outputs := [⟨0, 21, []⟩, ⟨0, 22, []⟩]
  kernels := [⟨0, 7, 0, 31, 0⟩]

/-- A block whose two kernels each carry a fee of 2^63. -/
def highFeeBlock : FullBlock where
  header := ⟨100, 5⟩
  body :=
    { inputs := [⟨0, 11⟩]
      outputs := [⟨1, 60000000040, []⟩]
      kernels := [⟨0, 9223372036854775808, 0, 31, 0⟩, ⟨1, 9223372036854775808, 0, 40, 0⟩] }

/-- Some adjacent pair of the list satisfies `hash(i) > hash(i+1)`. -/
def HasDescendingPair (hs : List Hash) : Prop :=
  ∃ i a b, hs[i]? = some a ∧ hs[i + 1]? = some b ∧ a > b

/-- Two blocks that show `VerifyCoinbase` the same data: at every position their outputs
have the same feature flags and, where the flags include `COINBASE_OUTPUT`, the same
commitment; at every position their kernels have the same feature flags and fee and, where
the flags include `COINBASE_KERNEL`, the same excess. Headers, inputs, range proofs, lock
heights, signatures and the commitments and excesses of unflagged entries are free. -/
def SameCoinbaseData (env : Env) (first second : FullBlock) : Prop :=
  List.Forall₂
    (fun (a b : TransactionOutput) => a.features = b.features ∧
      (a.features &&& env.COINBASE_OUTPUT = env.COINBASE_OUTPUT → a.commitment = b.commitment))
    first.body.outputs second.body.outputs ∧
  List.Forall₂
    (fun (a b : TransactionKernel) => a.features = b.features ∧ a.fee = b.fee ∧
      (a.features &&& env.COINBASE_KERNEL = env.COINBASE_KERNEL →
        a.excessCommitment = b.excessCommitment))
    first.body.kernels second.body.kernels

/-- No inputs, two outputs in descending hash order, one kernel. -/
def descendingOutputsBody : TransactionBody where
  inputs := []
  outputs := [⟨0, 22, []⟩, ⟨0, 21, []⟩]
  kernels := [⟨0, 7, 0, 31, 0⟩]

/-- The sample body with its two inputs swapped into descending hash order. -/
def descendingInputsBody : TransactionBody where
  inputs := [⟨0, 12⟩, ⟨0, 11⟩]
  outputs := [⟨0, 21, []⟩, ⟨0, 22, []⟩]
  kernels := [⟨0, 7, 0, 31, 0⟩]

/-- A body of 2^32 - 1 inputs and nothing else. -/
def nearWrapBody : TransactionBody where
  inputs := List.replicate 4294967295 ⟨0, 11⟩
  outputs := []
  kernels := []

/-- The sample block with other inputs, another header, and other commitments, excesses,
proofs and lock heights on its entries without coinbase flag. -/
def sampleBlockVariant : FullBlock where
  header := ⟨7, 9⟩
  body :=
    { inputs := [⟨0, 500⟩]
      outputs := [⟨0, 77, [1]⟩, ⟨0, 78, [2]⟩, ⟨1, 60000000047, [3]⟩]
      kernels := [⟨0, 7, 3, 99, 1⟩, ⟨1, 0, 4, 40, 2⟩] }

/-- A block at height 0 without inputs, holding a coinbase output and a coinbase kernel
whose lock height is 9. -/
def lockedCoinbaseBlock : FullBlock where
  header := ⟨0, 5⟩
  body :=
    { inputs := []
      outputs := [⟨1, 60000000040, []⟩]
      kernels := [⟨1, 0, 9, 40, 0⟩] }

/-- One input spending the one output of the same body (commitment 21), no kernels. -/
def cutThroughNoKernelsBody : TransactionBody where
  inputs := [⟨0, 21⟩]
  outputs := [⟨0, 21, []⟩]
  kernels := []

/-- A block at height 100 holding only its coinbase: `coinbaseOnlyBody`, whose coinbase
output 60000000040 is the coinbase kernel excess 40 plus the reward. -/
def coinbaseOnlyBlock : FullBlock where
  header := ⟨100, 5⟩
  body := coinbaseOnlyBody

end GrinPP

namespace GrinPP

/-! ## Shared lemmas -/

theorem rewardOverage_eq_neg (env : Env) (hR : env.REWARD ≤ 9223372036854775808) :
    rewardOverage env = -(env.REWARD : Int) := by
  unfold rewardOverage toInt64 u64
  have h1 : env.REWARD % 18446744073709551616 = env.REWARD := Nat.mod_eq_of_lt (by omega)
  rw [h1]
  by_cases h0 : env.REWARD = 0
  · simp [h0]
  · have h2 : (18446744073709551616 - env.REWARD) % 18446744073709551616
        = 18446744073709551616 - env.REWARD := Nat.mod_eq_of_lt (by omega)
    rw [h2, h2]
    have h3 : ¬ (18446744073709551616 - env.REWARD < 9223372036854775808) := by omega
    rw [if_neg h3]
    omega

theorem ValidateTransactionBody_eq_some_true (env : Env) (body : TransactionBody) (r : Bool) :
    ValidateTransactionBody env body r = some true ↔
      ValidateWeight env body r = true ∧ VerifySorted env body = some true ∧
      VerifyCutThrough body = true ∧ VerifyOutputs env body.outputs = true ∧
      VerifyKernels body.kernels = true := by
  unfold ValidateTransactionBody
  cases hw : ValidateWeight env body r <;>
  rcases hs : VerifySorted env body with _ | _ | _ <;>
  cases hc : VerifyCutThrough body <;>
  cases ho : VerifyOutputs env body.outputs <;>
  cases hk : VerifyKernels body.kernels <;> simp

/-! ## C1 - C3 -/

/-- The composition of `IsBlockValid` where its stages return: it returns true exactly when
the four stages pass, namely `ValidateTransactionBody` with `withReward = true`,
`VerifyKernelLockHeights`, `VerifyCoinbase` and `VerifyKernelSums` on the negated reward and
the block kernel offset; and when the body stage returns a verdict, a false from any stage
makes it return false. -/
theorem IsBlockValid_iff_all_stages (self : BlockValidator) (env : Env) (block : FullBlock)
    (previousKernelOffset : BlindingFactor) (hR : env.REWARD ≤ 9223372036854775808) :
    (IsBlockValid self env block previousKernelOffset = some true ↔
      ValidateTransactionBody env block.body true = some true ∧
      VerifyKernelLockHeights self block = true ∧
      VerifyCoinbase self env block = true ∧
      env.VerifyKernelSums block (-(env.REWARD : Int))
        (blockKernelOffset env block previousKernelOffset) = true) ∧
    (ValidateTransactionBody env block.body true ≠ none →
      (ValidateTransactionBody env block.body true = some false ∨
        VerifyKernelLockHeights self block = false ∨
        VerifyCoinbase self env block = false ∨
        env.VerifyKernelSums block (-(env.REWARD : Int))
          (blockKernelOffset env block previousKernelOffset) = false) →
      IsBlockValid self env block previousKernelOffset = some false) := by
  unfold IsBlockValid
  rw [rewardOverage_eq_neg env hR]
  rcases hb : ValidateTransactionBody env block.body true with _ | _ | _ <;>
  cases hl : VerifyKernelLockHeights self block <;>
  cases hc : VerifyCoinbase self env block <;>
  cases hk : env.VerifyKernelSums block (-(env.REWARD : Int))
    (blockKernelOffset env block previousKernelOffset) <;> simp

/-- The sample block passes all four stages and is accepted. -/
theorem IsBlockValid_iff_all_stages_witness :
    sampleEnv.REWARD ≤ 9223372036854775808 ∧
    IsBlockValid sampleValidator sampleEnv sampleBlock 3 = some true ∧
    ValidateTransactionBody sampleEnv sampleBlock.body true = some true ∧
    VerifyKernelLockHeights sampleValidator sampleBlock = true ∧
    VerifyCoinbase sampleValidator sampleEnv sampleBlock = true :=
  have h := (IsBlockValid_iff_all_stages sampleValidator sampleEnv sampleBlock 3
    (by decide)).1.1 (by decide)
  ⟨by decide, by decide, h.1, h.2.1, h.2.2.1⟩

/-- C1 (evaluation at a failing input): for a block without inputs whose kernel is locked
above the block height, `VerifyKernelLockHeights` returns false, yet `IsBlockValid` does
not return false, whichever validator object and previous kernel offset it is called with:
the body stage passes the weight check and then reads outside the empty input vector in
`VerifySorted`, before the lock heights are looked at. -/
theorem IsBlockValid_no_verdict_on_locked_kernel_without_inputs (self : BlockValidator)
    (previousKernelOffset : BlindingFactor) :
    VerifyKernelLockHeights self lockedCoinbaseBlock = false ∧
    ValidateWeight sampleEnv lockedCoinbaseBlock.body true = true ∧
    VerifySorted sampleEnv lockedCoinbaseBlock.body = none ∧
    IsBlockValid self sampleEnv lockedCoinbaseBlock previousKernelOffset = none := by
  refine ⟨?_, by decide, by decide, ?_⟩
  · simp [VerifyKernelLockHeights, lockedCoinbaseBlock, lockHeightLoop]
  have hb : ValidateTransactionBody sampleEnv lockedCoinbaseBlock.body true = none := by
    decide
  unfold IsBlockValid
  rw [hb]

/-- C2 (evaluation at a failing input): for a block whose header carries total kernel offset
5, validated against previous total offset 3, the offset handed to `VerifyKernelSums` is
zero whatever the environment, while the block's own offset delta is 2. -/
theorem blockKernelOffset_is_not_the_delta (env : Env) :
    blockKernelOffset env sampleBlock 3 = 0 ∧
    sampleBlock.header.totalKernelOffset = 5 ∧
    specKernelOffsetDelta sampleBlock.header.totalKernelOffset 3 = 2 := by
  refine ⟨?_, rfl, by decide⟩
  simp [blockKernelOffset, sampleBlock]

/-- The scenario of two inputs, two outputs and one kernel, sorted, light, cut-through
clean and with accepted proofs, validated without reward. -/
theorem sampleBody_accepted :
    ValidateTransactionBody sampleEnv sampleBody false = some true := by decide

/-! ## C4: weight -/

theorem blockWeight32_eq_mod (env : Env) (body : TransactionBody) (r : Bool) :
    blockWeight32 env body r = exactWeight env body r % 4294967296 := by
  unfold blockWeight32 exactWeight u32
  simp only [Nat.add_mod, Nat.mul_mod, Nat.mod_mod]

theorem ValidateWeight_eq_false_iff (env : Env) (body : TransactionBody) (r : Bool) :
    ValidateWeight env body r = false ↔
      env.MAX_BLOCK_WEIGHT < exactWeight env body r % 4294967296 := by
  unfold ValidateWeight
  rw [blockWeight32_eq_mod]
  by_cases h : exactWeight env body r % 4294967296 > env.MAX_BLOCK_WEIGHT <;> simp [h]

theorem exactWeight_replicate_inputs (env : Env) (n : Nat) (input : TransactionInput) :
    exactWeight env ⟨List.replicate n input, [], []⟩ false = n * env.BLOCK_INPUT_WEIGHT := by
  simp [exactWeight]

/-- The wrap-around does not depend on the sample constants: whatever the constants, as long
as an input weighs something, a body of `2^32 * (MAX_BLOCK_WEIGHT + 1)` inputs is over
weight and passes `ValidateWeight`. -/
theorem ValidateWeight_wraps_for_all_constants (env : Env) (input : TransactionInput)
    (h : 0 < env.BLOCK_INPUT_WEIGHT) :
    env.MAX_BLOCK_WEIGHT <
      exactWeight env ⟨List.replicate (4294967296 * (env.MAX_BLOCK_WEIGHT + 1)) input, [], []⟩
        false ∧
    ValidateWeight env
      ⟨List.replicate (4294967296 * (env.MAX_BLOCK_WEIGHT + 1)) input, [], []⟩ false = true := by
  have he := exactWeight_replicate_inputs env (4294967296 * (env.MAX_BLOCK_WEIGHT + 1)) input
  constructor
  · rw [he]
    have : 4294967296 * (env.MAX_BLOCK_WEIGHT + 1)
        ≤ 4294967296 * (env.MAX_BLOCK_WEIGHT + 1) * env.BLOCK_INPUT_WEIGHT :=
      Nat.le_mul_of_pos_right _ h
    omega
  · cases hv : ValidateWeight env
      ⟨List.replicate (4294967296 * (env.MAX_BLOCK_WEIGHT + 1)) input, [], []⟩ false
    · rw [ValidateWeight_eq_false_iff, he, Nat.mul_assoc, Nat.mul_mod_right] at hv
      exact absurd hv (Nat.not_lt_zero _)
    · rfl

/-- C4 (counterexample): a body of 2^32 inputs has exact weight 2^32 under the sample
constants, above the maximum of 80000, and `ValidateWeight` returns true for it. -/
theorem ValidateWeight_wraps_at_2_32 :
    exactWeight sampleEnv hugeInputsBody false = 4294967296 ∧
    sampleEnv.MAX_BLOCK_WEIGHT < exactWeight sampleEnv hugeInputsBody false ∧
    ValidateWeight sampleEnv hugeInputsBody false = true := by
  have he : exactWeight sampleEnv hugeInputsBody false = 4294967296 :=
    (exactWeight_replicate_inputs sampleEnv 4294967296 ⟨0, 11⟩).trans (Nat.mul_one _)
  have hm : sampleEnv.MAX_BLOCK_WEIGHT = 80000 := rfl
  refine ⟨he, ?_, ?_⟩
  · rw [he, hm]; norm_num
  · cases h : ValidateWeight sampleEnv hugeInputsBody false
    · rw [ValidateWeight_eq_false_iff, he, hm] at h
      norm_num at h
    · rfl

/-- C4 (amended): for a body whose exact weight is below 2^32, `ValidateWeight` returns
false exactly when the exact weight exceeds `MAX_BLOCK_WEIGHT`, and then
`ValidateTransactionBody` returns false whatever the rest of the body holds. -/
theorem ValidateWeight_exact_below_2_32 (env : Env) (body : TransactionBody)
    (withReward : Bool) (h : exactWeight env body withReward < 4294967296) :
    (ValidateWeight env body withReward = false ↔
      env.MAX_BLOCK_WEIGHT < exactWeight env body withReward) ∧
    (env.MAX_BLOCK_WEIGHT < exactWeight env body withReward →
      ValidateTransactionBody env body withReward = some false) := by
  have hiff : ValidateWeight env body withReward = false ↔
      env.MAX_BLOCK_WEIGHT < exactWeight env body withReward := by
    rw [ValidateWeight_eq_false_iff, Nat.mod_eq_of_lt h]
  refine ⟨hiff, fun hgt => ?_⟩
  unfold ValidateTransactionBody
  simp [hiff.2 hgt]

/-- Witness for C4: the sample body weighs 24 without reward and passes the weight check. -/
theorem ValidateWeight_exact_below_2_32_witness :
    exactWeight sampleEnv sampleBody false < 4294967296 ∧
    (ValidateWeight sampleEnv sampleBody false = false ↔
      sampleEnv.MAX_BLOCK_WEIGHT < exactWeight sampleEnv sampleBody false) :=
  ⟨by decide, (ValidateWeight_exact_below_2_32 sampleEnv sampleBody false (by decide)).1⟩

/-! ## C5, C6: ordering -/

theorem adjacentLe_cons_cons (a b : Hash) (rest : List Hash) :
    AdjacentLe (a :: b :: rest) ↔ a ≤ b ∧ AdjacentLe (b :: rest) := by
  constructor
  · intro h
    refine ⟨h 0 a b (by simp) (by simp), fun i x y hx hy => h (i + 1) x y ?_ ?_⟩
    · simpa using hx
    · simpa using hy
  · rintro ⟨hab, h⟩ i x y hx hy
    cases i with
    | zero =>
      simp only [List.getElem?_cons_zero, Option.some.injEq] at hx
      simp only [zero_add, List.getElem?_cons_succ, List.getElem?_cons_zero,
        Option.some.injEq] at hy
      rw [← hx, ← hy]
      exact hab
    | succ i =>
      exact h i x y (by simpa using hx) (by simpa using hy)

theorem sortedLoop_cons (a : Hash) (rest : List Hash) :
    (sortedLoop (a :: rest) = some true ↔ AdjacentLe (a :: rest)) ∧
    (sortedLoop (a :: rest) = some false ↔ ¬ AdjacentLe (a :: rest)) := by
  induction rest generalizing a with
  | nil =>
    have h : AdjacentLe [a] := by
      intro i x y _ hy
      simp at hy
    simp [sortedLoop, h]
  | cons b rest ih =>
    rw [adjacentLe_cons_cons]
    by_cases hab : a > b
    · have : ¬ a ≤ b := Nat.not_le.mpr hab
      simp [sortedLoop, hab, this]
    · have hle : a ≤ b := Nat.le_of_not_lt hab
      simp only [sortedLoop, hab, if_false, hle, true_and]
      exact ih b

theorem sortedLoop_nonempty (hs : List Hash) (h : hs ≠ []) :
    (sortedLoop hs = some true ↔ AdjacentLe hs) ∧
    (sortedLoop hs = some false ↔ ¬ AdjacentLe hs) := by
  cases hs with
  | nil => exact absurd rfl h
  | cons a rest => exact sortedLoop_cons a rest

/-- C5 (counterexample): a body whose two inputs have the same hash, and whose outputs and
kernels are in order, makes `VerifySorted` return true although the adjacent input hashes
are not strictly ascending. -/
theorem VerifySorted_accepts_duplicate :
    VerifySorted sampleEnv duplicateInputBody = some true ∧
    ¬ AdjacentLt (duplicateInputBody.inputs.map sampleEnv.hashInput) := by
  refine ⟨by decide, fun h => ?_⟩
  exact Nat.lt_irrefl 11 (h 0 11 11 (by decide) (by decide))

/-- C5 (amended): for a body whose three collections are all non-empty, `VerifySorted`
returns true exactly when in each collection every adjacent pair satisfies
`hash(i) ≤ hash(i+1)`, and returns false otherwise. -/
theorem VerifySorted_iff_adjacent_le (env : Env) (body : TransactionBody)
    (hi : body.inputs ≠ []) (ho : body.outputs ≠ []) (hk : body.kernels ≠ []) :
    (VerifySorted env body = some true ↔
      AdjacentLe (body.inputs.map env.hashInput) ∧
      AdjacentLe (body.outputs.map env.hashOutput) ∧
      AdjacentLe (body.kernels.map env.hashKernel)) ∧
    (VerifySorted env body = some false ↔
      ¬ (AdjacentLe (body.inputs.map env.hashInput) ∧
        AdjacentLe (body.outputs.map env.hashOutput) ∧
        AdjacentLe (body.kernels.map env.hashKernel))) := by
  have h1 := sortedLoop_nonempty (body.inputs.map env.hashInput) (by simpa using hi)
  have h2 := sortedLoop_nonempty (body.outputs.map env.hashOutput) (by simpa using ho)
  have h3 := sortedLoop_nonempty (body.kernels.map env.hashKernel) (by simpa using hk)
  unfold VerifySorted
  rcases e1 : sortedLoop (body.inputs.map env.hashInput) with _ | _ | _ <;>
  rcases e2 : sortedLoop (body.outputs.map env.hashOutput) with _ | _ | _ <;>
  rcases e3 : sortedLoop (body.kernels.map env.hashKernel) with _ | _ | _ <;>
  simp_all

/-- Witness for C5: the sample body has three non-empty collections in ascending order. -/
theorem VerifySorted_iff_adjacent_le_witness :
    sampleBody.inputs ≠ [] ∧ sampleBody.outputs ≠ [] ∧ sampleBody.kernels ≠ [] ∧
    VerifySorted sampleEnv sampleBody = some true ∧
    AdjacentLe (sampleBody.inputs.map sampleEnv.hashInput) :=
  ⟨by decide, by decide, by decide, by decide,
    ((VerifySorted_iff_adjacent_le sampleEnv sampleBody (by decide) (by decide)
      (by decide)).1.1 (by decide)).1⟩

/-- C6 (evaluation at the failing inputs): whenever the input collection is empty,
`VerifySorted` reads outside it, whatever the outputs and kernels; the same happens for an
empty output or kernel collection once the earlier loops have passed. Collections of one
element pass. -/
theorem VerifySorted_empty_collection_out_of_bounds (env : Env)
    (input : TransactionInput) (output : TransactionOutput) (kernel : TransactionKernel)
    (outputs : List TransactionOutput) (kernels : List TransactionKernel) :
    VerifySorted env ⟨[], outputs, kernels⟩ = none ∧
    VerifySorted env ⟨[input], [], kernels⟩ = none ∧
    VerifySorted env ⟨[input], [output], []⟩ = none ∧
    VerifySorted env ⟨[input], [output], [kernel]⟩ = some true := by
  simp [VerifySorted, sortedLoop]

/-! ## C7: kernel signatures -/

/-- C7 (evaluation of the code): `VerifyKernels` returns true for every list of kernels,
whatever their signatures, fees and lock heights. -/
theorem VerifyKernels_accepts_every_list (kernels : List TransactionKernel) :
    VerifyKernels kernels = true := by
  induction kernels with
  | nil => rfl
  | cons kernel rest ih => simpa [VerifyKernels] using ih

/-! ## C8: cut-through -/

theorem mem_foldl_insert (outputs : List TransactionOutput) (acc : List Commitment)
    (c : Commitment) :
    c ∈ outputs.foldl (fun commitments output => List.insert output.commitment commitments) acc
      ↔ c ∈ acc ∨ ∃ o ∈ outputs, o.commitment = c := by
  induction outputs generalizing acc with
  | nil => simp
  | cons o rest ih =>
    rw [List.foldl_cons, ih]
    simp only [List.mem_insert_iff, List.mem_cons, exists_eq_or_imp]
    constructor
    · rintro ((h | h) | h)
      · exact Or.inr (Or.inl h.symm)
      · exact Or.inl h
      · exact Or.inr (Or.inr h)
    · rintro (h | h | h)
      · exact Or.inl (Or.inr h)
      · exact Or.inl (Or.inl h.symm)
      · exact Or.inr h

theorem mem_outputCommitmentSet (outputs : List TransactionOutput) (c : Commitment) :
    c ∈ outputCommitmentSet outputs ↔ ∃ o ∈ outputs, o.commitment = c := by
  unfold outputCommitmentSet
  rw [mem_foldl_insert]
  simp

theorem cutThroughLoop_eq_false_iff (commitments : List Commitment)
    (inputs : List TransactionInput) :
    cutThroughLoop commitments inputs = false ↔ ∃ i ∈ inputs, i.commitment ∈ commitments := by
  induction inputs with
  | nil => simp [cutThroughLoop]
  | cons input rest ih =>
    by_cases h : input.commitment ∈ commitments
    · have hc : commitments.count input.commitment > 0 := List.count_pos_iff.mpr h
      simp [cutThroughLoop, hc, h]
    · have hc : ¬ commitments.count input.commitment > 0 := fun hp => h (List.count_pos_iff.mp hp)
      simp [cutThroughLoop, hc, h, ih]

theorem VerifyCutThrough_eq_false_iff (body : TransactionBody) :
    VerifyCutThrough body = false ↔
      ∃ i ∈ body.inputs, ∃ o ∈ body.outputs, i.commitment = o.commitment := by
  unfold VerifyCutThrough
  rw [cutThroughLoop_eq_false_iff]
  constructor
  · rintro ⟨i, hi, hm⟩
    obtain ⟨o, ho, he⟩ := (mem_outputCommitmentSet _ _).mp hm
    exact ⟨i, hi, o, ho, he.symm⟩
  · rintro ⟨i, hi, o, ho, he⟩
    exact ⟨i, hi, (mem_outputCommitmentSet _ _).mpr ⟨o, ho, he.symm⟩⟩

/-- Cut-through where `VerifySorted` returns: `VerifyCutThrough` returns false exactly when
some input's commitment equals some output's commitment of the same body; such a body is
never accepted by `ValidateTransactionBody`, for either value of `withReward`, and is
answered with false whenever `VerifySorted` returns a verdict. -/
theorem VerifyCutThrough_false_iff_shared_commitment (env : Env) (body : TransactionBody) :
    (VerifyCutThrough body = false ↔
      ∃ i ∈ body.inputs, ∃ o ∈ body.outputs, i.commitment = o.commitment) ∧
    ((∃ i ∈ body.inputs, ∃ o ∈ body.outputs, i.commitment = o.commitment) →
      ∀ withReward : Bool,
        ValidateTransactionBody env body withReward ≠ some true ∧
        (VerifySorted env body ≠ none →
          ValidateTransactionBody env body withReward = some false)) := by
  refine ⟨VerifyCutThrough_eq_false_iff body, fun h withReward => ?_⟩
  have hc : VerifyCutThrough body = false := (VerifyCutThrough_eq_false_iff body).mpr h
  unfold ValidateTransactionBody
  cases hw : ValidateWeight env body withReward <;>
  rcases hs : VerifySorted env body with _ | _ | _ <;> simp [hc]

/-- In `cutThroughBody` the second input spends the first output, and the body is answered
with false both with and without reward. -/
theorem VerifyCutThrough_false_iff_shared_commitment_witness :
    (∃ i ∈ cutThroughBody.inputs, ∃ o ∈ cutThroughBody.outputs,
      i.commitment = o.commitment) ∧
    VerifySorted sampleEnv cutThroughBody ≠ none ∧
    ValidateTransactionBody sampleEnv cutThroughBody false = some false ∧
    ValidateTransactionBody sampleEnv cutThroughBody true = some false :=
  have hx : ∃ i ∈ cutThroughBody.inputs, ∃ o ∈ cutThroughBody.outputs,
      i.commitment = o.commitment :=
    ⟨⟨0, 21⟩, by decide, ⟨0, 21, []⟩, by decide, rfl⟩
  have hs : VerifySorted sampleEnv cutThroughBody ≠ none := by decide
  have h := (VerifyCutThrough_false_iff_shared_commitment sampleEnv cutThroughBody).2 hx
  ⟨hx, hs, (h false).2 hs, (h true).2 hs⟩

/-- C8 (evaluation at a failing input): in a body without kernels whose one input spends
its one output, `VerifyCutThrough` returns false, yet `ValidateTransactionBody` does not
return false for either value of `withReward`: `VerifySorted` runs first and reads outside
the empty kernel vector. -/
theorem ValidateTransactionBody_no_verdict_on_cut_through_without_kernels :
    (∃ i ∈ cutThroughNoKernelsBody.inputs, ∃ o ∈ cutThroughNoKernelsBody.outputs,
      i.commitment = o.commitment) ∧
    VerifyCutThrough cutThroughNoKernelsBody = false ∧
    VerifySorted sampleEnv cutThroughNoKernelsBody = none ∧
    ValidateTransactionBody sampleEnv cutThroughNoKernelsBody false = none ∧
    ValidateTransactionBody sampleEnv cutThroughNoKernelsBody true = none := by
  refine ⟨⟨⟨0, 21⟩, by decide, ⟨0, 21, []⟩, by decide, rfl⟩, by decide, by decide,
    by decide, by decide⟩

/-! ## C9, C10: coinbase -/

/-- C9: `VerifyCoinbase` returns true exactly when the provider yields the commitment to
the reward, the sum of the coinbase-flagged output commitments minus that commitment, and
the sum of the coinbase-flagged kernel excesses, and the two sums are equal; it returns
false when any of the three constructions fails. -/
theorem VerifyCoinbase_iff_sums_equal (self : BlockValidator) (env : Env) (block : FullBlock) :
    (VerifyCoinbase self env block = true ↔
      ∃ rewardCommitment outputAdjustedSum kernelSum,
        env.CommitTransparent (coinbaseReward env block) = some rewardCommitment ∧
        env.AddCommitments (coinbaseCommitments env block) [rewardCommitment]
          = some outputAdjustedSum ∧
        env.AddCommitments (coinbaseKernelExcesses env block) [] = some kernelSum ∧
        kernelSum = outputAdjustedSum) ∧
    (env.CommitTransparent (coinbaseReward env block) = none →
      VerifyCoinbase self env block = false) ∧
    (∀ rewardCommitment,
      env.CommitTransparent (coinbaseReward env block) = some rewardCommitment →
      env.AddCommitments (coinbaseCommitments env block) [rewardCommitment] = none →
      VerifyCoinbase self env block = false) ∧
    (env.AddCommitments (coinbaseKernelExcesses env block) [] = none →
      VerifyCoinbase self env block = false) := by
  unfold VerifyCoinbase
  rcases hr : env.CommitTransparent (coinbaseReward env block) with _ | rc
  · simp
  · rcases ho : env.AddCommitments (coinbaseCommitments env block) [rc] with _ | o <;>
    rcases hk : env.AddCommitments (coinbaseKernelExcesses env block) [] with _ | k <;>
    simp [ho]
    exact eq_comm

/-- Witness for C9: the sample block's coinbase output 60000000047 equals its coinbase
kernel excess 40 plus the commitment to the reward and the fee of 7. -/
theorem VerifyCoinbase_iff_sums_equal_witness :
    VerifyCoinbase sampleValidator sampleEnv sampleBlock = true ∧
    ∃ rewardCommitment outputAdjustedSum kernelSum,
      sampleEnv.CommitTransparent (coinbaseReward sampleEnv sampleBlock)
        = some rewardCommitment ∧
      sampleEnv.AddCommitments (coinbaseCommitments sampleEnv sampleBlock) [rewardCommitment]
        = some outputAdjustedSum ∧
      sampleEnv.AddCommitments (coinbaseKernelExcesses sampleEnv sampleBlock) []
        = some kernelSum ∧
      kernelSum = outputAdjustedSum :=
  ⟨by decide,
    (VerifyCoinbase_iff_sums_equal sampleValidator sampleEnv sampleBlock).1.1 (by decide)⟩

theorem foldl_fee_eq (kernels : List TransactionKernel) (start : Nat) :
    kernels.foldl (fun reward kernel => u64 (reward + kernel.fee)) (u64 start)
      = u64 (start + totalFees kernels) := by
  induction kernels generalizing start with
  | nil => simp [totalFees]
  | cons kernel rest ih =>
    have h : u64 (u64 start + kernel.fee) = u64 (start + kernel.fee) := by
      unfold u64
      omega
    rw [List.foldl_cons, h, ih]
    simp [totalFees, Nat.add_assoc]

theorem coinbaseReward_eq_mod (env : Env) (block : FullBlock) :
    coinbaseReward env block = u64 (env.REWARD + totalFees block.body.kernels) :=
  foldl_fee_eq block.body.kernels env.REWARD

/-- C10 (counterexample): for a block with two kernels of fee 2^63 each, the amount handed
to `CommitTransparent` is the reward alone, not the reward plus the 2^64 of fees. -/
theorem coinbaseReward_wraps_at_2_64 :
    coinbaseReward sampleEnv highFeeBlock = 60000000000 ∧
    sampleEnv.REWARD + totalFees highFeeBlock.body.kernels = 18446744133709551616 := by
  constructor <;> decide

/-- C10 (amended): when `REWARD` plus the fees of all kernels of the block is below 2^64,
the amount `VerifyCoinbase` hands to `CommitTransparent` is exactly that sum, over all
kernels, coinbase-flagged or not; in particular `VerifyCoinbase` fails when the provider
cannot commit to that sum. -/
theorem coinbaseReward_exact_below_2_64 (self : BlockValidator) (env : Env) (block : FullBlock)
    (h : env.REWARD + totalFees block.body.kernels < 18446744073709551616) :
    coinbaseReward env block = env.REWARD + totalFees block.body.kernels ∧
    (env.CommitTransparent (env.REWARD + totalFees block.body.kernels) = none →
      VerifyCoinbase self env block = false) := by
  have he : coinbaseReward env block = env.REWARD + totalFees block.body.kernels := by
    rw [coinbaseReward_eq_mod]
    exact Nat.mod_eq_of_lt h
  refine ⟨he, fun hn => ?_⟩
  unfold VerifyCoinbase
  rw [he, hn]

/-- Witness for C10: the sample block carries fees 7 and 0, and 60000000007 is committed. -/
theorem coinbaseReward_exact_below_2_64_witness :
    sampleEnv.REWARD + totalFees sampleBlock.body.kernels < 18446744073709551616 ∧
    coinbaseReward sampleEnv sampleBlock = 60000000007 :=
  ⟨by decide,
    (coinbaseReward_exact_below_2_64 sampleValidator sampleEnv sampleBlock (by decide)).1⟩

/-! ## C11: kernel lock heights -/

theorem lockHeightLoop_eq_true_iff (height : Nat) (kernels : List TransactionKernel) :
    lockHeightLoop height kernels = true ↔ ∀ kernel ∈ kernels, kernel.lockHeight ≤ height := by
  induction kernels with
  | nil => simp [lockHeightLoop]
  | cons kernel rest ih =>
    by_cases h : kernel.lockHeight > height
    · have hn : ¬ kernel.lockHeight ≤ height := Nat.not_le.mpr h
      simp [lockHeightLoop, h, hn]
    · have hle : kernel.lockHeight ≤ height := Nat.le_of_not_lt h
      simp [lockHeightLoop, h, hle, ih]

/-- C11: `VerifyKernelLockHeights` returns true exactly when every kernel of the block's
body has a lock height less than or equal to the header's height; a block without kernels
passes, and so does a kernel whose lock height equals the height. -/
theorem VerifyKernelLockHeights_iff_all_le (self : BlockValidator) (block : FullBlock) :
    (VerifyKernelLockHeights self block = true ↔
      ∀ kernel ∈ block.body.kernels, kernel.lockHeight ≤ block.header.height) ∧
    VerifyKernelLockHeights self ⟨block.header, ⟨block.body.inputs, block.body.outputs, []⟩⟩
      = true ∧
    (∀ features fee excess signature,
      VerifyKernelLockHeights self
        ⟨block.header, ⟨block.body.inputs, block.body.outputs,
          [⟨features, fee, block.header.height, excess, signature⟩]⟩⟩ = true) := by
  refine ⟨lockHeightLoop_eq_true_iff _ _, ?_, ?_⟩
  · simp [VerifyKernelLockHeights, lockHeightLoop]
  · intro features fee excess signature
    simp [VerifyKernelLockHeights, lockHeightLoop]

/-! ## C12: range proofs -/

/-- C12: `VerifyOutputs` returns the result of one call of `VerifyRangeProofs` on two lists
as long as the outputs, whose entries at every position are the commitment and the range
proof of the output at that position. -/
theorem VerifyOutputs_is_one_batch_call (env : Env) (outputs : List TransactionOutput) :
    ∃ commitments proofs,
      VerifyOutputs env outputs = env.VerifyRangeProofs commitments proofs ∧
      commitments.length = outputs.length ∧ proofs.length = outputs.length ∧
      (∀ i : Nat, commitments[i]? =
        (outputs[i]?).map (fun output : TransactionOutput => output.commitment)) ∧
      (∀ i : Nat, proofs[i]? =
        (outputs[i]?).map (fun output : TransactionOutput => output.rangeProof)) := by
  refine ⟨outputs.map (fun output : TransactionOutput => output.commitment),
    outputs.map (fun output : TransactionOutput => output.rangeProof), rfl, ?_, ?_, ?_, ?_⟩
  · simp
  · simp
  · intro i; simp
  · intro i; simp

/-! ## C14: the reserved reward slot -/

theorem u32_succ (n : Nat) : u32 (u32 n + 1) = u32 (n + 1) := by
  unfold u32
  omega

theorem u32_zero_add (n : Nat) : u32 (u32 n + 0) = u32 n := by
  unfold u32
  omega

/-- C14: checking the weight with the reward reserved is the same as checking, without
reward, any body with the same inputs, one more output and one more kernel. -/
theorem ValidateWeight_reward_is_extra_output_and_kernel (env : Env)
    (body extended : TransactionBody)
    (hi : extended.inputs = body.inputs)
    (ho : extended.outputs.length = body.outputs.length + 1)
    (hk : extended.kernels.length = body.kernels.length + 1) :
    ValidateWeight env body true = ValidateWeight env extended false := by
  unfold ValidateWeight blockWeight32
  simp only [hi, ho, hk, if_true, Bool.false_eq_true, if_false, u32_succ, u32_zero_add]

/-- Witness for C14: the sample body with reward against the sample body extended by the
coinbase output and kernel of the sample block, without reward. -/
theorem ValidateWeight_reward_is_extra_output_and_kernel_witness :
    sampleBlock.body.inputs = sampleBody.inputs ∧
    sampleBlock.body.outputs.length = sampleBody.outputs.length + 1 ∧
    sampleBlock.body.kernels.length = sampleBody.kernels.length + 1 ∧
    ValidateWeight sampleEnv sampleBody true = ValidateWeight sampleEnv sampleBlock.body false :=
  ⟨by decide, by decide, by decide,
    ValidateWeight_reward_is_extra_output_and_kernel sampleEnv sampleBody sampleBlock.body
      (by decide) (by decide) (by decide)⟩

/-! ## C13: descending order -/

theorem sortedLoop_of_descending (hs : List Hash) (h : HasDescendingPair hs) :
    sortedLoop hs = some false := by
  obtain ⟨i, a, b, ha, hb, hab⟩ := h
  have hne : hs ≠ [] := by
    intro he
    rw [he] at ha
    simp at ha
  refine (sortedLoop_nonempty hs hne).2.mpr fun hle => ?_
  exact absurd (hle i a b ha hb) (Nat.not_le.mpr hab)

theorem sortedLoop_ne_none (hs : List Hash) (h : hs ≠ []) : sortedLoop hs ≠ none := by
  intro hn
  by_cases hle : AdjacentLe hs
  · rw [(sortedLoop_nonempty hs h).1.mpr hle] at hn
    exact absurd hn (by simp)
  · rw [(sortedLoop_nonempty hs h).2.mpr hle] at hn
    exact absurd hn (by simp)

/-- A descending pair is answered with false as long as every collection checked before
the one holding it is non-empty; a descending pair among the inputs always is. -/
theorem VerifySorted_descending_after_nonempty (env : Env) (body : TransactionBody)
    (h : HasDescendingPair (body.inputs.map env.hashInput) ∨
      (body.inputs ≠ [] ∧ HasDescendingPair (body.outputs.map env.hashOutput)) ∨
      (body.inputs ≠ [] ∧ body.outputs ≠ [] ∧
        HasDescendingPair (body.kernels.map env.hashKernel))) (withReward : Bool) :
    VerifySorted env body = some false ∧
    ValidateTransactionBody env body withReward = some false := by
  have hs : VerifySorted env body = some false := by
    unfold VerifySorted
    rcases h with h | ⟨hi, h⟩ | ⟨hi, ho, h⟩
    · rw [sortedLoop_of_descending _ h]
    · have h1 := sortedLoop_ne_none (body.inputs.map env.hashInput) (by simpa using hi)
      rw [sortedLoop_of_descending _ h]
      rcases e1 : sortedLoop (body.inputs.map env.hashInput) with _ | _ | _ <;> simp_all
    · have h1 := sortedLoop_ne_none (body.inputs.map env.hashInput) (by simpa using hi)
      have h2 := sortedLoop_ne_none (body.outputs.map env.hashOutput) (by simpa using ho)
      rw [sortedLoop_of_descending _ h]
      rcases e1 : sortedLoop (body.inputs.map env.hashInput) with _ | _ | _ <;>
      rcases e2 : sortedLoop (body.outputs.map env.hashOutput) with _ | _ | _ <;> simp_all
  refine ⟨hs, ?_⟩
  unfold ValidateTransactionBody
  rw [hs]
  cases ValidateWeight env body withReward <;> simp

/-- The scenario of the sample body with its inputs swapped: false, with and without reward. -/
theorem descendingInputsBody_rejected :
    VerifySorted sampleEnv descendingInputsBody = some false ∧
    ValidateTransactionBody sampleEnv descendingInputsBody false = some false ∧
    ValidateTransactionBody sampleEnv descendingInputsBody true = some false := by
  decide

/-- C13 (evaluation at a failing input): a body without inputs whose two outputs are in
descending hash order has a descending pair, and neither `VerifySorted` nor
`ValidateTransactionBody` returns false for it: the loop over the empty inputs reads out of
bounds before the outputs are looked at. -/
theorem VerifySorted_descending_outputs_without_inputs :
    HasDescendingPair (descendingOutputsBody.outputs.map sampleEnv.hashOutput) ∧
    VerifySorted sampleEnv descendingOutputsBody = none ∧
    ValidateTransactionBody sampleEnv descendingOutputsBody false = none ∧
    ValidateTransactionBody sampleEnv descendingOutputsBody true = none := by
  refine ⟨⟨0, 22, 21, by decide, by decide, by decide⟩, by decide, by decide, by decide⟩

/-! ## C15: purity -/

/-- The member `m_pTxHashSet` is read by none of the three member functions, so the model
of `IsBlockValid` has the same value on every validator object. -/
theorem IsBlockValid_independent_of_handle (first second : BlockValidator) (env : Env)
    (block : FullBlock) (previousKernelOffset : BlindingFactor) :
    IsBlockValid first env block previousKernelOffset
      = IsBlockValid second env block previousKernelOffset := by
  unfold IsBlockValid VerifyKernelLockHeights VerifyCoinbase
  rfl

theorem VerifySorted_ne_none_of_nonempty (env : Env) (body : TransactionBody)
    (hi : body.inputs ≠ []) (ho : body.outputs ≠ []) (hk : body.kernels ≠ []) :
    VerifySorted env body ≠ none := by
  have h1 := sortedLoop_ne_none (body.inputs.map env.hashInput) (by simpa using hi)
  have h2 := sortedLoop_ne_none (body.outputs.map env.hashOutput) (by simpa using ho)
  have h3 := sortedLoop_ne_none (body.kernels.map env.hashKernel) (by simpa using hk)
  unfold VerifySorted
  rcases e1 : sortedLoop (body.inputs.map env.hashInput) with _ | _ | _ <;>
  rcases e2 : sortedLoop (body.outputs.map env.hashOutput) with _ | _ | _ <;>
  rcases e3 : sortedLoop (body.kernels.map env.hashKernel) with _ | _ | _ <;>
  simp_all

/-- On a block whose three collections are all non-empty every read stays inside its
vector, and `IsBlockValid` returns a boolean fixed by the provider, the block and the
previous kernel offset. -/
theorem IsBlockValid_returns_of_nonempty (self : BlockValidator) (env : Env)
    (block : FullBlock) (previousKernelOffset : BlindingFactor)
    (hi : block.body.inputs ≠ []) (ho : block.body.outputs ≠ [])
    (hk : block.body.kernels ≠ []) :
    ∃ verdict : Bool, IsBlockValid self env block previousKernelOffset = some verdict := by
  have hs := VerifySorted_ne_none_of_nonempty env block.body hi ho hk
  unfold IsBlockValid ValidateTransactionBody
  cases ValidateWeight env block.body true <;>
  rcases e : VerifySorted env block.body with _ | _ | _ <;>
  cases VerifyCutThrough block.body <;>
  cases VerifyOutputs env block.body.outputs <;>
  cases VerifyKernels block.body.kernels <;>
  cases VerifyKernelLockHeights self block <;>
  cases VerifyCoinbase self env block <;>
  cases env.VerifyKernelSums block (rewardOverage env)
    (blockKernelOffset env block previousKernelOffset) <;> simp_all

/-- C15 (evaluation at a failing input): on a block holding only its coinbase, hence
without inputs, `IsBlockValid` returns no boolean fixed by its inputs, whichever validator
object and previous kernel offset it is called with: after the weight check `VerifySorted`
reads outside the empty input vector, and what follows depends on memory that is none of
the function's inputs. -/
theorem IsBlockValid_no_defined_result_on_coinbase_only_block (self : BlockValidator)
    (previousKernelOffset : BlindingFactor) :
    coinbaseOnlyBlock.body.inputs = [] ∧
    VerifySorted sampleEnv coinbaseOnlyBlock.body = none ∧
    IsBlockValid self sampleEnv coinbaseOnlyBlock previousKernelOffset = none ∧
    ¬ ∃ verdict : Bool,
      IsBlockValid self sampleEnv coinbaseOnlyBlock previousKernelOffset = some verdict := by
  have hb : ValidateTransactionBody sampleEnv coinbaseOnlyBlock.body true = none := by
    decide
  have hn : IsBlockValid self sampleEnv coinbaseOnlyBlock previousKernelOffset = none := by
    unfold IsBlockValid
    rw [hb]
  refine ⟨rfl, by decide, hn, ?_⟩
  rintro ⟨verdict, hv⟩
  rw [hn] at hv
  exact absurd hv (by simp)

/-! ## C16: the arguments of VerifyKernelSums -/

/-- C16: the offset `IsBlockValid` passes to `VerifyKernelSums` is
`AddKernelOffsets([total], [previous])` when the header's total kernel offset equals the
previous kernel offset and zero otherwise, and the overage is the negated reward: once the
first three stages pass, the result is the one of `VerifyKernelSums` on these arguments. -/
theorem IsBlockValid_kernel_sum_arguments (self : BlockValidator) (env : Env)
    (block : FullBlock) (previousKernelOffset : BlindingFactor)
    (hR : env.REWARD ≤ 9223372036854775808) :
    (block.header.totalKernelOffset = previousKernelOffset →
      blockKernelOffset env block previousKernelOffset
        = env.AddKernelOffsets [block.header.totalKernelOffset] [previousKernelOffset]) ∧
    (block.header.totalKernelOffset ≠ previousKernelOffset →
      blockKernelOffset env block previousKernelOffset = 0) ∧
    rewardOverage env = -(env.REWARD : Int) ∧
    (ValidateTransactionBody env block.body true = some true →
      VerifyKernelLockHeights self block = true →
      VerifyCoinbase self env block = true →
      IsBlockValid self env block previousKernelOffset
        = some (env.VerifyKernelSums block (-(env.REWARD : Int))
            (if block.header.totalKernelOffset = previousKernelOffset then
              env.AddKernelOffsets [block.header.totalKernelOffset] [previousKernelOffset]
            else 0))) := by
  refine ⟨fun h => ?_, fun h => ?_, rewardOverage_eq_neg env hR, fun hb hl hc => ?_⟩
  · simp [blockKernelOffset, h]
  · simp [blockKernelOffset, h]
  · unfold IsBlockValid
    rw [hb, hl, hc, rewardOverage_eq_neg env hR]
    have ho : blockKernelOffset env block previousKernelOffset
        = (if block.header.totalKernelOffset = previousKernelOffset then
            env.AddKernelOffsets [block.header.totalKernelOffset] [previousKernelOffset]
          else 0) := by
      unfold blockKernelOffset
      by_cases h : block.header.totalKernelOffset = previousKernelOffset <;> simp [h]
    rw [ho]
    cases env.VerifyKernelSums block (-(env.REWARD : Int))
      (if block.header.totalKernelOffset = previousKernelOffset then
        env.AddKernelOffsets [block.header.totalKernelOffset] [previousKernelOffset]
      else 0) <;> simp

/-- Witness for C16: the sample block, whose header offset is 5, against previous offset 5
(the aggregation branch, which yields 10) and against previous offset 3 (zero). -/
theorem IsBlockValid_kernel_sum_arguments_witness :
    sampleEnv.REWARD ≤ 9223372036854775808 ∧
    blockKernelOffset sampleEnv sampleBlock 5 = 10 ∧
    blockKernelOffset sampleEnv sampleBlock 3 = 0 ∧
    rewardOverage sampleEnv = -60000000000 :=
  have h5 := IsBlockValid_kernel_sum_arguments sampleValidator sampleEnv sampleBlock 5
    (by decide)
  have h3 := IsBlockValid_kernel_sum_arguments sampleValidator sampleEnv sampleBlock 3
    (by decide)
  ⟨by decide, (h5.1 (by decide)).trans (by decide), h3.2.1 (by decide), h3.2.2.1⟩

/-! ## C17: the reward slot and permissiveness -/

theorem exactWeight_replicate_inputs_reward (env : Env) (n : Nat) (input : TransactionInput) :
    exactWeight env ⟨List.replicate n input, [], []⟩ true
      = n * env.BLOCK_INPUT_WEIGHT + env.BLOCK_OUTPUT_WEIGHT + env.BLOCK_KERNEL_WEIGHT := by
  simp [exactWeight]

theorem exactWeight_false_le_true (env : Env) (body : TransactionBody) :
    exactWeight env body false ≤ exactWeight env body true := by
  unfold exactWeight
  simp only [if_true, Bool.false_eq_true, if_false, Nat.add_zero, Nat.add_mul, Nat.one_mul]
  omega

/-- C17 (counterexample): for a body of 2^32 - 1 inputs, under the sample constants,
`ValidateWeight` returns true with the reward reserved and false without it. -/
theorem ValidateWeight_reward_wraps_past_limit :
    ValidateWeight sampleEnv nearWrapBody true = true ∧
    ValidateWeight sampleEnv nearWrapBody false = false := by
  have hf : exactWeight sampleEnv nearWrapBody false = 4294967295 :=
    (exactWeight_replicate_inputs sampleEnv 4294967295 ⟨0, 11⟩).trans (Nat.mul_one _)
  have ht : exactWeight sampleEnv nearWrapBody true = 4294967295 * 1 + 10 + 2 :=
    exactWeight_replicate_inputs_reward sampleEnv 4294967295 ⟨0, 11⟩
  have hm : sampleEnv.MAX_BLOCK_WEIGHT = 80000 := rfl
  constructor
  · cases h : ValidateWeight sampleEnv nearWrapBody true
    · rw [ValidateWeight_eq_false_iff, ht, hm] at h
      norm_num at h
    · rfl
  · rw [ValidateWeight_eq_false_iff, hf, hm]
    norm_num

/-- C17 (amended): for a body whose exact weight with the reward reserved is below 2^32,
if `ValidateWeight(body, true)` returns true then `ValidateWeight(body, false)` returns
true, and if `ValidateTransactionBody(body, true)` returns true then
`ValidateTransactionBody(body, false)` returns true. -/
theorem ValidateWeight_reward_not_more_permissive (env : Env) (body : TransactionBody)
    (h : exactWeight env body true < 4294967296) :
    (ValidateWeight env body true = true → ValidateWeight env body false = true) ∧
    (ValidateTransactionBody env body true = some true →
      ValidateTransactionBody env body false = some true) := by
  have hle := exactWeight_false_le_true env body
  have hw : ValidateWeight env body true = true → ValidateWeight env body false = true := by
    intro ht
    cases hf : ValidateWeight env body false
    · rw [ValidateWeight_eq_false_iff, Nat.mod_eq_of_lt (Nat.lt_of_le_of_lt hle h)] at hf
      have hfalse : ValidateWeight env body true = false := by
        rw [ValidateWeight_eq_false_iff, Nat.mod_eq_of_lt h]
        exact Nat.lt_of_lt_of_le hf hle
      rw [hfalse] at ht
      exact absurd ht (by simp)
    · rfl
  refine ⟨hw, fun hv => ?_⟩
  rw [ValidateTransactionBody_eq_some_true] at hv ⊢
  exact ⟨hw hv.1, hv.2⟩

/-- Witness for C17: the sample body weighs 36 with the reward reserved and is accepted
both ways. -/
theorem ValidateWeight_reward_not_more_permissive_witness :
    exactWeight sampleEnv sampleBody true < 4294967296 ∧
    ValidateWeight sampleEnv sampleBody false = true ∧
    ValidateTransactionBody sampleEnv sampleBody false = some true :=
  have h := ValidateWeight_reward_not_more_permissive sampleEnv sampleBody (by decide)
  ⟨by decide, h.1 (by decide), h.2 (by decide)⟩

/-! ## C18: what VerifyCoinbase reads -/

theorem coinbase_outputs_congr (flag : Nat) (first second : List TransactionOutput)
    (h : List.Forall₂
      (fun (a b : TransactionOutput) => a.features = b.features ∧
        (a.features &&& flag = flag → a.commitment = b.commitment)) first second) :
    (first.filter (fun output => output.features &&& flag == flag)).map
        (fun output => output.commitment)
      = (second.filter (fun output => output.features &&& flag == flag)).map
        (fun output => output.commitment) := by
  induction h with
  | nil => rfl
  | cons hab _ ih =>
    obtain ⟨hf, hc⟩ := hab
    simp only [List.filter_cons, ← hf]
    split
    · rename_i hflag
      simp only [List.map_cons, ih, hc (by simpa using hflag)]
    · exact ih

theorem coinbase_kernels_congr (flag : Nat) (first second : List TransactionKernel)
    (h : List.Forall₂
      (fun (a b : TransactionKernel) => a.features = b.features ∧ a.fee = b.fee ∧
        (a.features &&& flag = flag → a.excessCommitment = b.excessCommitment))
      first second) :
    (first.filter (fun kernel => kernel.features &&& flag == flag)).map
        (fun kernel => kernel.excessCommitment)
      = (second.filter (fun kernel => kernel.features &&& flag == flag)).map
        (fun kernel => kernel.excessCommitment) := by
  induction h with
  | nil => rfl
  | cons hab _ ih =>
    obtain ⟨hf, _, hc⟩ := hab
    simp only [List.filter_cons, ← hf]
    split
    · rename_i hflag
      simp only [List.map_cons, ih, hc (by simpa using hflag)]
    · exact ih

theorem fee_loop_congr (flag : Nat) (first second : List TransactionKernel)
    (h : List.Forall₂
      (fun (a b : TransactionKernel) => a.features = b.features ∧ a.fee = b.fee ∧
        (a.features &&& flag = flag → a.excessCommitment = b.excessCommitment))
      first second) (start : Nat) :
    first.foldl (fun reward kernel => u64 (reward + kernel.fee)) start
      = second.foldl (fun reward kernel => u64 (reward + kernel.fee)) start := by
  induction h generalizing start with
  | nil => rfl
  | cons hab _ ih =>
    obtain ⟨_, hfee, _⟩ := hab
    simp only [List.foldl_cons, hfee]
    exact ih _

/-- C18: two blocks with the same feature flags and fees on their kernels, the same feature
flags on their outputs, the same commitment on every `COINBASE_OUTPUT`-flagged output and
the same excess on every `COINBASE_KERNEL`-flagged kernel get the same result from
`VerifyCoinbase`, however they differ in inputs and in the commitments and excesses of
their other outputs and kernels. -/
theorem VerifyCoinbase_depends_only_on_coinbase_data (self : BlockValidator) (env : Env)
    (first second : FullBlock) (h : SameCoinbaseData env first second) :
    VerifyCoinbase self env first = VerifyCoinbase self env second := by
  have ho : coinbaseCommitments env first = coinbaseCommitments env second :=
    coinbase_outputs_congr env.COINBASE_OUTPUT _ _ h.1
  have hk : coinbaseKernelExcesses env first = coinbaseKernelExcesses env second :=
    coinbase_kernels_congr env.COINBASE_KERNEL _ _ h.2
  have hr : coinbaseReward env first = coinbaseReward env second :=
    fee_loop_congr env.COINBASE_KERNEL _ _ h.2 _
  unfold VerifyCoinbase
  rw [ho, hk, hr]

/-- Witness for C18: the sample block and its variant differ in header, inputs, unflagged
commitments and excesses, and both pass `VerifyCoinbase`. -/
theorem VerifyCoinbase_depends_only_on_coinbase_data_witness :
    SameCoinbaseData sampleEnv sampleBlock sampleBlockVariant ∧
    sampleBlock.body.inputs ≠ sampleBlockVariant.body.inputs ∧
    VerifyCoinbase sampleValidator sampleEnv sampleBlockVariant = true :=
  have hd : SameCoinbaseData sampleEnv sampleBlock sampleBlockVariant := by
    unfold SameCoinbaseData sampleBlock sampleBlockVariant sampleEnv
    simp
  ⟨hd, by decide,
    (VerifyCoinbase_depends_only_on_coinbase_data sampleValidator sampleEnv sampleBlock
      sampleBlockVariant hd).symm.trans (by decide)⟩

end GrinPP
